import Mathlib

/-
Verification of the change-detection, classification and notification core of
crate_upd_bot (src/main.rs) against its natural-language specification.

The embedding follows src/main.rs. External collaborators are modelled at their
interface: the git history backend (git2) is modelled as a linear commit history
with a line-level diff attached to each commit, the Telegram transport and the
subscription store are modelled by an environment recording their responses, and
panics of the Rust code are modelled as explicit error or outcome constructors.
-/

namespace CrateUpdBot

/-- Modelled from the spec: identity of a VersionRecord is (name, version);
src/krate.rs, which defines the Crate struct, is not part of the given sources. -/
structure CrateId where
  name : String
  vers : String
deriving Repr, DecidableEq

/-- Modelled from the spec: VersionRecord is (name, version, yanked, link-metadata);
the link metadata is kept abstract as the rendered links string produced by the
html_links method of the missing src/krate.rs. -/
structure Crate where
  id : CrateId
  yanked : Bool
  links : String
deriving Repr, DecidableEq

/-- Rendered display links of a crate (html_links in the missing src/krate.rs). -/
def Crate.html_links (c : Crate) : String := c.links

/-- The ActionKind enum of src/main.rs. -/
inductive ActionKind
  | NewVersion
  | Yanked
  | Unyanked
deriving Repr, DecidableEq

/-- Status of a git diff delta as matched by diff_one: the code distinguishes
Delta::Modified and Delta::Added from every other delta kind. -/
inductive DeltaStatus
  | modified
  | added
  | otherDelta
deriving Repr, DecidableEq

/-- Origin of a diff line as matched by diff_one: deletion, addition, or other. -/
inductive LineOrigin
  | minus
  | plus
  | context
deriving Repr, DecidableEq

/-- Content of a diff line after the Record Codec ran on it. Modelled from the
spec: a line either decodes into a version record or is malformed (non-utf8 or
undecodable JSON); the codec itself lives in the missing src/krate.rs. -/
inductive LineContent
  | record (c : Crate)
  | malformed
deriving Repr, DecidableEq

/-- One callback of Diff.foreach in diff_one: the enclosing delta status and
file count together with the line origin and decoded content. -/
structure DiffLine where
  status : DeltaStatus
  nfiles : Nat
  origin : LineOrigin
  content : LineContent
deriving Repr, DecidableEq

/-- How diff_one fails: a Rust panic (assert or expect, which kills the process)
or the returned Err value built by git2 Error from the string Unexpected diff. -/
inductive DiffOneError
  | panicked (msg : String)
  | unexpectedDiff
deriving Repr, DecidableEq

/-- The line scanning loop of diff_one (the Diff.foreach callback of
src/main.rs): accumulates the at-most-one deleted record into prev and the
at-most-one added record into next, panicking exactly where the Rust code does. -/
def diff_oneLines : List DiffLine → Option Crate → Option Crate →
    Except DiffOneError (Option Crate × Option Crate)
  | [], prev, next => .ok (prev, next)
  | l :: ls, prev, next =>
    match l.status with
    | .modified | .added =>
      if l.nfiles == 2 || l.nfiles == 1 then
        match l.origin with
        | .minus =>
          match prev with
          | some _ => .error (.panicked "Expected number of deletions <= 1 per commit")
          | none =>
            match l.content with
            | .record c => diff_oneLines ls (some c) next
            | .malformed => .error (.panicked "cound not deserialize crate")
        | .plus =>
          match next with
          | some _ => .error (.panicked "Expected number of additions = 1 per commit")
          | none =>
            match l.content with
            | .record c => diff_oneLines ls prev (some c)
            | .malformed => .error (.panicked "cound not deserialize crate")
        | .context => diff_oneLines ls prev next
      else
        .error (.panicked "assertion failed: nfiles == 2 or nfiles == 1")
    | .otherDelta => diff_oneLines ls prev next

/-- The final match of diff_one on (prev.map yanked, next.yanked). -/
def classifyTransition (prevYanked : Option Bool) (next : Crate) :
    Except DiffOneError (Crate × ActionKind) :=
  match prevYanked, next.yanked with
  | none, false => .ok (next, .NewVersion)
  | some false, true => .ok (next, .Yanked)
  | some true, false => .ok (next, .Unyanked)
  | _, _ => .error .unexpectedDiff

/-- diff_one of src/main.rs: scan the diff lines, require exactly one added
record (the trailing expect), then derive the ActionKind from the yanked
transition. -/
def diff_one (lines : List DiffLine) : Except DiffOneError (Crate × ActionKind) :=
  match diff_oneLines lines none none with
  | .error e => .error e
  | .ok (_, none) => .error (.panicked "Expected number of additions = 1 per commit")
  | .ok (prev, some next) => classifyTransition (prev.map (fun c => c.yanked)) next

/-- The cfg::Config fields consumed by the core of src/main.rs (src/cfg.rs is
not part of the given sources; Modelled from the spec: broadcast target,
per-send delay, per-commit delay and poll interval). -/
structure Config where
  channel : Option Int
  broadcast_delay_millis : Nat
  update_delay_millis : Nat
  pull_delay : Nat
deriving Repr, DecidableEq

/-- External behaviour during one poll cycle: whether the remote fetch succeeds,
the answer of db.list_subscribers, and the chat ids whose sends fail. -/
structure Env where
  fetchOk : Bool
  dbSubscribers : Except Unit (List Int)
  sendFails : List Int
deriving Repr

/-- Observable events of a poll cycle, in order of occurrence. -/
inductive Event
  | logDbError
  | send (chatId : Int) (msg : String) (ok : Bool)
  | sendDelay (ms : Nat)
  | classified (commitId : Nat)
  | classifyFailed (commitId : Nat)
  | advanced (commitId : Nat)
  | updateDelay (ms : Nat)
deriving Repr, DecidableEq

/-- The three message templates rendered at the top of notify. -/
def renderMessage (krate : Crate) (action : ActionKind) : String :=
  match action with
  | .NewVersion =>
    "Crate was updated: <code>" ++ krate.id.name ++ "#" ++ krate.id.vers ++
      "</code> " ++ krate.html_links
  | .Yanked =>
    "Crate was yanked: <code>" ++ krate.id.name ++ "#" ++ krate.id.vers ++
      "</code> " ++ krate.html_links
  | .Unyanked =>
    "Crate was unyanked: <code>" ++ krate.id.name ++ "#" ++ krate.id.vers ++
      "</code> " ++ krate.html_links

/-- notify_inner of src/main.rs: one send (its failure only logged, recorded in
the ok flag) followed by the configured broadcast delay. -/
def notify_inner (chatId : Int) (msg : String) (cfg : Config) (env : Env) :
    List Event :=
  [.send chatId msg (!(env.sendFails.contains chatId)),
   .sendDelay cfg.broadcast_delay_millis]

/-- notify of src/main.rs: render the message, query the subscription store
(logging a store failure and defaulting to no subscribers), send to the
configured channel first and then to each subscriber in order. -/
def notify (krate : Crate) (action : ActionKind) (cfg : Config) (env : Env) :
    List Event :=
  let message := renderMessage krate action
  let dbPart : List Event × List Int :=
    match env.dbSubscribers with
    | .ok us => ([], us)
    | .error _ => ([.logDbError], [])
  let chPart : List Event :=
    match cfg.channel with
    | some ch => notify_inner ch message cfg env
    | none => []
  dbPart.1 ++ chPart ++ (dbPart.2.map (fun u => notify_inner u message cfg env)).flatten

/-- A commit of the linear registry-index history: an opaque id plus the
line-level tree diff against its parent, which is what diff_tree_to_tree of two
adjacent commits produces on this linear history. -/
structure Commit where
  id : Nat
  diff : List DiffLine
deriving Repr, DecidableEq

/-- The local repository as pull sees it after a successful fetch: the full
linear index history in ancestor-first order, the index of the checkpoint
commit (HEAD, refs/heads/master) and the index of FETCH_HEAD. -/
structure RepoState where
  history : List Commit
  headIdx : Nat
  fetchedIdx : Nat
deriving Repr, DecidableEq

/-- Modelled from the spec: the git revwalk over the range HEAD~1..FETCH_HEAD
with TOPOLOGICAL and REVERSE sorting (git2 is an external capability). On the
linear index history this enumerates the commits reachable from FETCH_HEAD but
not from the checkpoint parent, ancestor-first: the slice from the checkpoint
(inclusive) up to the fetched head (inclusive). -/
def revwalkCommits (st : RepoState) : List Commit :=
  (st.history.take (st.fetchedIdx + 1)).drop st.headIdx

/-- The commits strictly between checkpoint (exclusive) and fetched head
(inclusive): everything the revwalk yields except the checkpoint itself. -/
def newCommits (st : RepoState) : List Commit :=
  (st.history.take (st.fetchedIdx + 1)).drop (st.headIdx + 1)

/-- array_windows of the arraylib crate as used by pull: all adjacent pairs of
a list, in order. -/
def array_windows (l : List Commit) : List (Commit × Commit) :=
  l.zip l.tail

/-- The commit windows processed by one poll cycle. -/
def pullWindows (st : RepoState) : List (Commit × Commit) :=
  array_windows (revwalkCommits st)

/-- The checkpoint commit at the start of the cycle (head of the revwalk). -/
def firstCommit (st : RepoState) : Commit :=
  (revwalkCommits st).headD ⟨0, []⟩

/-- How one call of pull ends: normal return, a returned git2 error (the
Unexpected diff classification error propagates through the question mark
operator), or a panic somewhere inside the cycle. -/
inductive PullOutcome
  | ok
  | err
  | panicked (msg : String)
deriving Repr, DecidableEq

/-- Result of one poll cycle: the event trace, the final checkpoint commit and
the way the cycle ended. -/
structure PullResult where
  trace : List Event
  checkpoint : Commit
  outcome : PullOutcome
deriving Repr, DecidableEq

/-- The per-window loop of pull: classify the window diff, notify, fast-forward
the checkpoint to the window next commit, sleep the update delay, continue. A
classification failure ends the cycle at once with the checkpoint untouched. -/
def pullGo (cfg : Config) (env : Env) :
    List (Commit × Commit) → Commit → PullResult
  | [], cp => ⟨[], cp, .ok⟩
  | (_, next) :: ws, cp =>
    match diff_one next.diff with
    | .error (.panicked m) => ⟨[.classifyFailed next.id], cp, .panicked m⟩
    | .error .unexpectedDiff => ⟨[.classifyFailed next.id], cp, .err⟩
    | .ok (k, a) =>
      let r := pullGo cfg env ws next
      ⟨.classified next.id ::
         (notify k a cfg env ++
           .advanced next.id :: .updateDelay cfg.update_delay_millis :: r.trace),
       r.checkpoint, r.outcome⟩

/-- pull of src/main.rs: fetch (an unreachable remote makes the expect call
panic before anything else happens), walk the range HEAD~1..FETCH_HEAD, and
process every adjacent commit window in order. -/
def pull (st : RepoState) (cfg : Config) (env : Env) : PullResult :=
  if env.fetchOk then
    pullGo cfg env (pullWindows st) (firstCommit st)
  else
    ⟨[], firstCommit st, .panicked "could not fetch new version of the index"⟩

/-- One iteration of the main loop of src/main.rs seen from outside: either the
process is still running with a new checkpoint and will poll again after
pull_delay, or it died, because pull panicked or because the expect call on the
result of pull turned a returned error into a panic. -/
inductive LoopStep
  | keepsRunning (checkpoint : Commit)
  | crashed (msg : String)
deriving Repr, DecidableEq

/-- One iteration of the main loop of src/main.rs. -/
def mainStep (st : RepoState) (cfg : Config) (env : Env) : LoopStep :=
  match pull st cfg env with
  | ⟨_, cp, .ok⟩ => .keepsRunning cp
  | ⟨_, _, .err⟩ => .crashed "pull failed"
  | ⟨_, _, .panicked m⟩ => .crashed m

/-! Observers used to state the claims. -/

/-- The chat ids of the send events of a trace, in order. -/
def sentTargets : List Event → List Int
  | [] => []
  | .send t _ _ :: es => t :: sentTargets es
  | _ :: es => sentTargets es

/-- Checks that every send event is immediately followed by a delay of d. -/
def delaysAfterSends (d : Nat) : List Event → Bool
  | [] => true
  | .send _ _ _ :: .sendDelay e :: es => e == d && delaysAfterSends d es
  | .send _ _ _ :: _ => false
  | _ :: es => delaysAfterSends d es

/-- A delta status the classifier scans (Delta::Modified or Delta::Added). -/
def trackedLine (l : DiffLine) : Bool :=
  match l.status with
  | .modified => true
  | .added => true
  | .otherDelta => false

def isPlus : LineOrigin → Bool
  | .plus => true
  | _ => false

def isMinus : LineOrigin → Bool
  | .minus => true
  | _ => false

def isMalformed : LineContent → Bool
  | .malformed => true
  | _ => false

/-- Number of added record lines in scanned deltas of a diff. -/
def trackedAdds : List DiffLine → Nat
  | [] => 0
  | l :: ls => (if trackedLine l && isPlus l.origin then 1 else 0) + trackedAdds ls

/-- Number of deleted record lines in scanned deltas of a diff. -/
def trackedDels : List DiffLine → Nat
  | [] => 0
  | l :: ls => (if trackedLine l && isMinus l.origin then 1 else 0) + trackedDels ls

/-- Whether some scanned added or deleted line fails to decode. -/
def hasMalformedTracked : List DiffLine → Bool
  | [] => false
  | l :: ls =>
    (trackedLine l && (isPlus l.origin || isMinus l.origin) && isMalformed l.content)
      || hasMalformedTracked ls

def isOkE : Except DiffOneError (Crate × ActionKind) → Bool
  | .ok _ => true
  | .error _ => false

/-- The window list is a chain starting at c: each window previous commit is the
next commit of the window before it. array_windows output always has this shape. -/
def chainedFrom : Commit → List (Commit × Commit) → Prop
  | _, [] => True
  | c, (p, n) :: ws => p = c ∧ chainedFrom n ws

/-! Concrete fixtures used by witnesses and counterexamples. -/

/-- A deleted version-record line, as the index produces for a yank toggle. -/
def recordDeletion (c : Crate) : DiffLine := ⟨.modified, 2, .minus, .record c⟩

/-- An added version-record line. -/
def recordAddition (c : Crate) : DiffLine := ⟨.modified, 2, .plus, .record c⟩

def fooV1 : Crate := ⟨⟨"foo", "1.0.0"⟩, false, ""⟩

def fooV1y : Crate := ⟨⟨"foo", "1.0.0"⟩, true, ""⟩

def cfg0 : Config := ⟨none, 0, 0, 0⟩

def cfgCh : Config := ⟨some 100, 5, 7, 9⟩

def env0 : Env := ⟨true, .ok [], []⟩

def envCh : Env := ⟨true, .ok [7, 8], []⟩

def envNoFetch : Env := ⟨false, .ok [], []⟩

def commit0 : Commit := ⟨0, []⟩

def commit1 : Commit := ⟨1, [recordAddition fooV1]⟩

/-- A commit whose diff deletes and re-adds the record with yanked unchanged:
the (Some false, false) row of the transition table. -/
def commit2bad : Commit := ⟨2, [recordDeletion fooV1, recordAddition fooV1]⟩

def st0 : RepoState := ⟨[commit0], 0, 0⟩

def st2 : RepoState := ⟨[commit0, commit1, commit2bad], 0, 2⟩

/-- A diff with two added record lines in tracked deltas. -/
def twoAddsDiff : List DiffLine := [recordAddition fooV1, recordAddition fooV1y]

/-! ## Claims -/

/-- Claim C1: the classification of a commit window follows the transition
table over (prev.yanked as an optional, next.yanked): (None, false) yields
NewVersion, (Some false, true) yields Yanked, (Some true, false) yields
Unyanked, and both (Some true, true) and (Some false, false) yield the fatal
classification error. The mapping is a Lean function, hence deterministic. -/
theorem c1_transition_table : ∀ (p n : Crate),
    (n.yanked = false → diff_one [recordAddition n] = .ok (n, .NewVersion)) ∧
    (p.yanked = false → n.yanked = true →
      diff_one [recordDeletion p, recordAddition n] = .ok (n, .Yanked)) ∧
    (p.yanked = true → n.yanked = false →
      diff_one [recordDeletion p, recordAddition n] = .ok (n, .Unyanked)) ∧
    (p.yanked = true → n.yanked = true →
      diff_one [recordDeletion p, recordAddition n] = .error .unexpectedDiff) ∧
    (p.yanked = false → n.yanked = false →
      diff_one [recordDeletion p, recordAddition n] = .error .unexpectedDiff) := by
  intro p n
  refine ⟨fun h1 => ?_, fun h1 h2 => ?_, fun h1 h2 => ?_, fun h1 h2 => ?_,
    fun h1 h2 => ?_⟩ <;>
  simp [diff_one, diff_oneLines, classifyTransition, recordAddition,
    recordDeletion, h1] <;>
  simp [h2]

/-- Witness for C1: the five rows of the table evaluated at concrete crates. -/
theorem c1_transition_table_witness :
    diff_one [recordAddition fooV1] = .ok (fooV1, .NewVersion) ∧
    diff_one [recordDeletion fooV1, recordAddition fooV1y] = .ok (fooV1y, .Yanked) ∧
    diff_one [recordDeletion fooV1y, recordAddition fooV1] = .ok (fooV1, .Unyanked) ∧
    diff_one [recordDeletion fooV1y, recordAddition fooV1y] = .error .unexpectedDiff ∧
    diff_one [recordDeletion fooV1, recordAddition fooV1] = .error .unexpectedDiff :=
  ⟨(c1_transition_table fooV1 fooV1).1 rfl,
   (c1_transition_table fooV1 fooV1y).2.1 rfl rfl,
   (c1_transition_table fooV1y fooV1).2.2.1 rfl rfl,
   (c1_transition_table fooV1y fooV1y).2.2.2.1 rfl rfl,
   (c1_transition_table fooV1 fooV1).2.2.2.2 rfl rfl⟩

/-- Claim C9: a window whose diff has no deleted record line but whose single
added line decodes with yanked set, the (None, true) input the transition table
of the spec omits, makes diff_one return the fatal classification error. -/
theorem c9_yanked_without_deletion : ∀ (n : Crate), n.yanked = true →
    diff_one [recordAddition n] = .error .unexpectedDiff := by
  intro n h1
  simp [diff_one, diff_oneLines, classifyTransition, recordAddition, h1]

/-- Witness for C9: the (None, true) input at a concrete crate. -/
theorem c9_yanked_without_deletion_witness :
    diff_one [recordAddition fooV1y] = .error .unexpectedDiff :=
  c9_yanked_without_deletion fooV1y rfl

/-- Counterexample to claim C4 as stated: with the remote unreachable the
process does not abort just the current cycle and retry on the next poll
interval; the expect call on the fetch result panics, so the loop iteration
ends with the process dead, the checkpoint still at its pre-cycle value. -/
theorem c4_counterexample :
    mainStep st0 cfg0 envNoFetch =
      .crashed "could not fetch new version of the index" ∧
    (pull st0 cfg0 envNoFetch).checkpoint = commit0 ∧
    mainStep st0 cfg0 envNoFetch ≠ .keepsRunning commit0 := by
  refine ⟨rfl, rfl, ?_⟩
  decide

/-- Claim C4 as amended: when the remote fetch fails, nothing of the cycle
runs (no classification, no sends, no checkpoint move: the trace is empty and
the checkpoint is the pre-cycle checkpoint), but the failure is a panic that
terminates the process instead of being surfaced as an error that the loop
retries on the next poll interval. -/
theorem c4_amended_fetch_failure : ∀ (st : RepoState) (cfg : Config) (env : Env),
    env.fetchOk = false →
    pull st cfg env =
      ⟨[], firstCommit st, .panicked "could not fetch new version of the index"⟩ ∧
    mainStep st cfg env =
      .crashed "could not fetch new version of the index" := by
  intro st cfg env h
  constructor
  · simp [pull, h]
  · simp [mainStep, pull, h]

/-- Witness for C4 as amended, at a concrete state. -/
theorem c4_amended_fetch_failure_witness :
    pull st0 cfg0 envNoFetch =
      ⟨[], firstCommit st0, .panicked "could not fetch new version of the index"⟩ ∧
    mainStep st0 cfg0 envNoFetch =
      .crashed "could not fetch new version of the index" :=
  c4_amended_fetch_failure st0 cfg0 envNoFetch rfl

/-- Claim C10: when the fetched head equals the checkpoint the revwalk yields
fewer than two commits, no window is produced, the cycle emits no event at all
(no classification, no send), the checkpoint stays put and pull returns
success. -/
theorem c10_idle_cycle : ∀ (st : RepoState) (cfg : Config) (env : Env),
    st.fetchedIdx = st.headIdx → st.fetchedIdx < st.history.length →
    env.fetchOk = true →
    (revwalkCommits st).length < 2 ∧
    pullWindows st = [] ∧
    pull st cfg env = ⟨[], firstCommit st, .ok⟩ := by
  intro st cfg env hfe hfl henv
  have hlen : (revwalkCommits st).length = 1 := by
    simp only [revwalkCommits, List.length_drop, List.length_take]
    omega
  obtain ⟨a, ha⟩ := List.length_eq_one.1 hlen
  have hw : pullWindows st = [] := by
    simp [pullWindows, array_windows, ha]
  refine ⟨by omega, hw, ?_⟩
  simp [pull, henv, hw, pullGo]

/-- Witness for C10 at a concrete state. -/
theorem c10_idle_cycle_witness :
    (revwalkCommits st0).length < 2 ∧
    pullWindows st0 = [] ∧
    pull st0 cfg0 env0 = ⟨[], firstCommit st0, .ok⟩ :=
  c10_idle_cycle st0 cfg0 env0 rfl (by decide) rfl

/-! Helper lemmas about the dispatcher trace. -/

theorem sentTargets_append : ∀ (l₁ l₂ : List Event),
    sentTargets (l₁ ++ l₂) = sentTargets l₁ ++ sentTargets l₂ := by
  intro l₁ l₂
  induction l₁ with
  | nil => rfl
  | cons e es ih => cases e <;> simp [sentTargets, ih]

theorem sentTargets_notify_inner : ∀ (t : Int) (m : String) (cfg : Config)
    (env : Env), sentTargets (notify_inner t m cfg env) = [t] := by
  intro t m cfg env
  rfl

theorem sentTargets_inner_append : ∀ (t : Int) (m : String) (cfg : Config)
    (env : Env) (rest : List Event),
    sentTargets (notify_inner t m cfg env ++ rest) = t :: sentTargets rest := by
  intro t m cfg env rest
  rfl

theorem delaysAfterSends_inner_append : ∀ (t : Int) (m : String) (cfg : Config)
    (env : Env) (rest : List Event),
    delaysAfterSends cfg.broadcast_delay_millis (notify_inner t m cfg env ++ rest) =
      delaysAfterSends cfg.broadcast_delay_millis rest := by
  intro t m cfg env rest
  show delaysAfterSends cfg.broadcast_delay_millis
    (.send t m (!(env.sendFails.contains t)) ::
      .sendDelay cfg.broadcast_delay_millis :: rest) = _
  simp [delaysAfterSends]

theorem sentTargets_subscriber_part : ∀ (us : List Int) (msg : String)
    (cfg : Config) (env : Env),
    sentTargets ((us.map (fun u => notify_inner u msg cfg env)).flatten) = us := by
  intro us msg cfg env
  induction us with
  | nil => rfl
  | cons u us ih =>
    rw [List.map_cons, List.flatten_cons, sentTargets_inner_append, ih]

theorem delaysAfterSends_subscriber_part : ∀ (us : List Int) (msg : String)
    (cfg : Config) (env : Env),
    delaysAfterSends cfg.broadcast_delay_millis
      ((us.map (fun u => notify_inner u msg cfg env)).flatten) = true := by
  intro us msg cfg env
  induction us with
  | nil => rfl
  | cons u us ih =>
    rw [List.map_cons, List.flatten_cons, delaysAfterSends_inner_append, ih]

/-- Outcome and final checkpoint of the window loop do not depend on the
configuration or on the environment: only the window diffs decide them. -/
theorem pullGo_frame : ∀ (ws : List (Commit × Commit)) (cp : Commit)
    (cfg₁ cfg₂ : Config) (env₁ env₂ : Env),
    (pullGo cfg₁ env₁ ws cp).outcome = (pullGo cfg₂ env₂ ws cp).outcome ∧
    (pullGo cfg₁ env₁ ws cp).checkpoint = (pullGo cfg₂ env₂ ws cp).checkpoint := by
  intro ws
  induction ws with
  | nil => intro cp cfg₁ cfg₂ env₁ env₂; exact ⟨rfl, rfl⟩
  | cons w ws ih =>
    intro cp cfg₁ cfg₂ env₁ env₂
    obtain ⟨p, nx⟩ := w
    rcases hd : diff_one nx.diff with e | ka
    · rcases e with m | _ <;> simp [pullGo, hd]
    · obtain ⟨k, a⟩ := ka
      simpa [pullGo, hd] using ih nx cfg₁ cfg₂ env₁ env₂

/-- If every window of the cycle classifies, the cycle returns success. -/
theorem pullGo_all_ok : ∀ (cfg : Config) (env : Env)
    (ws : List (Commit × Commit)) (cp : Commit),
    (∀ w ∈ ws, isOkE (diff_one w.2.diff) = true) →
    (pullGo cfg env ws cp).outcome = .ok := by
  intro cfg env ws
  induction ws with
  | nil => intro cp _; rfl
  | cons w ws ih =>
    intro cp hall
    obtain ⟨p, nx⟩ := w
    rcases hd : diff_one nx.diff with e | ka
    · have := hall (p, nx) (by simp)
      simp [isOkE, hd] at this
    · obtain ⟨k, a⟩ := ka
      have := ih nx (fun w hw => hall w (by simp [hw]))
      simpa [pullGo, hd] using this

/-- Claim C6: a dispatch with a configured broadcast target and subscriber list
us issues exactly 1 + us.length sends, strictly sequentially (the trace is a
sequence), broadcast target first and then each subscriber in store order, and
every send is immediately followed by the configured delay. -/
theorem c6_dispatch_fanout : ∀ (k : Crate) (a : ActionKind) (cfg : Config)
    (env : Env) (ch : Int) (us : List Int),
    cfg.channel = some ch → env.dbSubscribers = .ok us →
    sentTargets (notify k a cfg env) = ch :: us ∧
    (sentTargets (notify k a cfg env)).length = 1 + us.length ∧
    delaysAfterSends cfg.broadcast_delay_millis (notify k a cfg env) = true := by
  intro k a cfg env ch us hch hdb
  have h1 : sentTargets (notify k a cfg env) = ch :: us := by
    simp [notify, hch, hdb, sentTargets_inner_append,
      sentTargets_subscriber_part]
  refine ⟨h1, by simp [h1]; omega, ?_⟩
  simp [notify, hch, hdb, delaysAfterSends_inner_append,
    delaysAfterSends_subscriber_part]

/-- Witness for C6 at a concrete dispatch: channel 100, subscribers 7 and 8. -/
theorem c6_dispatch_fanout_witness :
    sentTargets (notify fooV1 .NewVersion cfgCh envCh) = [100, 7, 8] ∧
    (sentTargets (notify fooV1 .NewVersion cfgCh envCh)).length = 1 + 2 ∧
    delaysAfterSends 5 (notify fooV1 .NewVersion cfgCh envCh) = true :=
  c6_dispatch_fanout fooV1 .NewVersion cfgCh envCh 100 [7, 8] rfl rfl

/-- Claim C7: failures of individual sends are invisible to control flow: the
attempted recipients are exactly the broadcast target followed by every
resolved subscriber, once each in order, whatever the set of failing targets
is; and the outcome and final checkpoint of the whole cycle never depend on
which sends fail, so a cycle whose windows all classify still ends in success
with the checkpoint advanced. -/
theorem c7_send_failures_nonfatal : ∀ (k : Crate) (a : ActionKind)
    (cfg : Config) (fOk : Bool) (us fs : List Int),
    sentTargets (notify k a cfg ⟨fOk, .ok us, fs⟩) = cfg.channel.toList ++ us ∧
    (∀ (st : RepoState) (env : Env) (fs₂ : List Int),
      (pull st cfg { env with sendFails := fs₂ }).outcome =
        (pull st cfg env).outcome ∧
      (pull st cfg { env with sendFails := fs₂ }).checkpoint =
        (pull st cfg env).checkpoint) ∧
    (∀ (st : RepoState) (env : Env), env.fetchOk = true →
      (∀ w ∈ pullWindows st, isOkE (diff_one w.2.diff) = true) →
      (pull st cfg env).outcome = .ok) := by
  intro k a cfg fOk us fs
  refine ⟨?_, ?_, ?_⟩
  · rcases hch : cfg.channel with _ | ch <;>
      simp [notify, hch, sentTargets_inner_append, sentTargets,
        sentTargets_subscriber_part]
  · intro st env fs₂
    rcases hf : env.fetchOk
    · simp [pull, hf]
    · simp [pull, hf]
      exact pullGo_frame (pullWindows st) (firstCommit st) cfg cfg _ _
  · intro st env hf hall
    simp [pull, hf]
    exact pullGo_all_ok cfg env (pullWindows st) (firstCommit st) hall

/-- Witness for C7: subscribers 7 and 8 with the send to 7 failing are still
attempted exactly once each after the broadcast target; and the two-commit
cycle of st2 has the same outcome and checkpoint whatever sends fail. -/
theorem c7_send_failures_nonfatal_witness :
    sentTargets (notify fooV1 .NewVersion cfgCh ⟨true, .ok [7, 8], [7]⟩) =
      cfgCh.channel.toList ++ [7, 8] ∧
    (pull st2 cfgCh { env0 with sendFails := [7] }).outcome =
      (pull st2 cfgCh env0).outcome ∧
    (pull st0 cfgCh env0).outcome = .ok :=
  ⟨(c7_send_failures_nonfatal fooV1 .NewVersion cfgCh true [7, 8] [7]).1,
   ((c7_send_failures_nonfatal fooV1 .NewVersion cfgCh true [7, 8] [7]).2.1
      st2 env0 [7]).1,
   (c7_send_failures_nonfatal fooV1 .NewVersion cfgCh true [7, 8] [7]).2.2
      st0 env0 rfl (by decide)⟩

/-- Claim C8: a failing subscription-store query is only logged: the dispatch
emits the store-error log event, treats the subscriber set as empty (so with a
configured broadcast target exactly that one send still happens), and neither
outcome nor checkpoint of the cycle depend on the store answer. -/
theorem c8_store_failure_recoverable : ∀ (k : Crate) (a : ActionKind)
    (cfg : Config) (fOk : Bool) (fs : List Int),
    notify k a cfg ⟨fOk, .error (), fs⟩ =
      .logDbError :: notify k a cfg ⟨fOk, .ok [], fs⟩ ∧
    (∀ ch : Int, cfg.channel = some ch →
      sentTargets (notify k a cfg ⟨fOk, .error (), fs⟩) = [ch]) ∧
    (∀ (st : RepoState) (env : Env) (db₂ : Except Unit (List Int)),
      (pull st cfg { env with dbSubscribers := db₂ }).outcome =
        (pull st cfg env).outcome ∧
      (pull st cfg { env with dbSubscribers := db₂ }).checkpoint =
        (pull st cfg env).checkpoint) := by
  intro k a cfg fOk fs
  refine ⟨?_, ?_, ?_⟩
  · rcases hch : cfg.channel with _ | ch <;> simp [notify, hch, notify_inner]
  · intro ch hch
    simp [notify, hch, notify_inner, sentTargets, sentTargets_append]
  · intro st env db₂
    rcases hf : env.fetchOk
    · simp [pull, hf]
    · simp [pull, hf]
      exact pullGo_frame (pullWindows st) (firstCommit st) cfg cfg _ _

/-- Witness for C8: with the store down and channel 100 configured, the
dispatch logs the failure and still sends exactly the broadcast message. -/
theorem c8_store_failure_recoverable_witness :
    notify fooV1 .NewVersion cfgCh ⟨true, .error (), []⟩ =
      .logDbError :: notify fooV1 .NewVersion cfgCh ⟨true, .ok [], []⟩ ∧
    sentTargets (notify fooV1 .NewVersion cfgCh ⟨true, .error (), []⟩) = [100] ∧
    (pull st2 cfgCh { env0 with dbSubscribers := .error () }).checkpoint =
      (pull st2 cfgCh env0).checkpoint :=
  ⟨(c8_store_failure_recoverable fooV1 .NewVersion cfgCh true []).1,
   (c8_store_failure_recoverable fooV1 .NewVersion cfgCh true []).2.1 100 rfl,
   ((c8_store_failure_recoverable fooV1 .NewVersion cfgCh true []).2.2
      st2 env0 (.error ())).2⟩

/-! Helper lemmas for the checkpoint ordering claim. -/

/-- The dispatcher never emits a checkpoint advance event. -/
theorem notify_no_advanced : ∀ (k : Crate) (a : ActionKind) (cfg : Config)
    (env : Env) (n : Nat), Event.advanced n ∉ notify k a cfg env := by
  intro k a cfg env n
  rcases hdb : env.dbSubscribers with _ | us <;>
    rcases hch : cfg.channel with _ | ch <;>
    simp [notify, notify_inner, hdb, hch]

/-- Inversion of the cycle trace at an advance event: whatever precedes an
advance to commit n ends with the classification event for n followed by the
complete dispatch trace of that window. The checkpoint is advanced only after
the notification attempt for the window has completed, never before. -/
theorem pullGo_advanced_inv : ∀ (cfg : Config) (env : Env)
    (ws : List (Commit × Commit)) (cp : Commit) (n : Nat) (t₁ t₂ : List Event),
    (pullGo cfg env ws cp).trace = t₁ ++ .advanced n :: t₂ →
    ∃ t₀ k a, t₁ = t₀ ++ .classified n :: notify k a cfg env := by
  intro cfg env ws
  induction ws with
  | nil =>
    intro cp n t₁ t₂ h
    simp [pullGo] at h
  | cons w ws ih =>
    obtain ⟨p, nx⟩ := w
    intro cp n t₁ t₂ h
    rcases hd : diff_one nx.diff with e | ka
    · rcases e with m | _ <;>
      · simp only [pullGo, hd] at h
        rcases t₁ with _ | ⟨e₁, t₁⟩ <;> simp at h
    · obtain ⟨k0, a0⟩ := ka
      simp only [pullGo, hd] at h
      rcases t₁ with _ | ⟨e₁, t₁⟩
      · simp at h
      · rw [List.cons_append] at h
        have he := (List.cons.inj h).1
        have h2 := (List.cons.inj h).2
        rcases List.append_eq_append_iff.1 h2 with ⟨a', ha1, ha2⟩ | ⟨c', hc1, hc2⟩
        · rcases a' with _ | ⟨x, a''⟩
          · simp only [List.append_nil] at ha1
            simp only [List.nil_append] at ha2
            have hn := (List.cons.inj ha2).1
            simp only [Event.advanced.injEq] at hn
            refine ⟨[], k0, a0, ?_⟩
            simp [ha1, ← he, ← hn]
          · have hx := (List.cons.inj ha2).1
            have hrest := (List.cons.inj ha2).2
            rcases a'' with _ | ⟨y, a₃⟩
            · simp at hrest
            · have hy := (List.cons.inj hrest).1
              have hR := (List.cons.inj hrest).2
              obtain ⟨t₀, k, a, ht⟩ := ih nx n a₃ t₂ hR
              refine ⟨Event.classified nx.id ::
                (notify k0 a0 cfg env ++
                  Event.advanced nx.id ::
                    Event.updateDelay cfg.update_delay_millis :: t₀), k, a, ?_⟩
              simp [← he, ha1, ← hx, ← hy, ht]
        · rcases c' with _ | ⟨x, c''⟩
          · simp only [List.append_nil] at hc1
            simp only [List.nil_append] at hc2
            have hn := (List.cons.inj hc2).1
            simp only [Event.advanced.injEq] at hn
            refine ⟨[], k0, a0, ?_⟩
            simp [← hc1, ← he, hn]
          · have hx := (List.cons.inj hc2).1
            exfalso
            apply notify_no_advanced k0 a0 cfg env n
            rw [hc1, hx]
            simp

/-- Every list of adjacent pairs is a chain starting at the head. -/
theorem chainedFrom_array_windows : ∀ (l : List Commit) (c : Commit),
    chainedFrom c (array_windows (c :: l)) := by
  intro l
  induction l with
  | nil => intro c; simp [array_windows, chainedFrom]
  | cons b t ih =>
    intro c
    simpa [array_windows, chainedFrom] using ih b

/-- The windows of a cycle form a chain starting at the cycle checkpoint. -/
theorem chainedFrom_pullWindows : ∀ (st : RepoState),
    chainedFrom (firstCommit st) (pullWindows st) := by
  intro st
  rcases h : revwalkCommits st with _ | ⟨c, l⟩
  · simp [pullWindows, firstCommit, h, array_windows, chainedFrom]
  · have := chainedFrom_array_windows l c
    simpa [pullWindows, firstCommit, h] using this

/-- When the cycle does not end in success, there is a first window whose diff
does not classify; every window before it classified, and the final checkpoint
is exactly the previous commit of that failing window. -/
theorem pullGo_failure : ∀ (cfg : Config) (env : Env)
    (ws : List (Commit × Commit)) (cp : Commit), chainedFrom cp ws →
    (pullGo cfg env ws cp).outcome ≠ .ok →
    ∃ ws₁ p n ws₂, ws = ws₁ ++ (p, n) :: ws₂ ∧
      (∀ w ∈ ws₁, isOkE (diff_one w.2.diff) = true) ∧
      isOkE (diff_one n.diff) = false ∧
      (pullGo cfg env ws cp).checkpoint = p := by
  intro cfg env ws
  induction ws with
  | nil =>
    intro cp _ hout
    simp [pullGo] at hout
  | cons w ws ih =>
    obtain ⟨p0, nx⟩ := w
    intro cp hch hout
    obtain ⟨hp0, hchain⟩ := hch
    rcases hd : diff_one nx.diff with e | ka
    · refine ⟨[], p0, nx, ws, by simp, by simp, by simp [isOkE, hd], ?_⟩
      rcases e with m | _ <;> simp [pullGo, hd, hp0]
    · obtain ⟨k0, a0⟩ := ka
      have hout2 : (pullGo cfg env ws nx).outcome ≠ .ok := by
        simpa [pullGo, hd] using hout
      obtain ⟨ws₁, p, n, ws₂, hsplit, hok, hbad, hcp⟩ := ih nx hchain hout2
      refine ⟨(p0, nx) :: ws₁, p, n, ws₂, by simp [hsplit], ?_, hbad, ?_⟩
      · intro w hw
        rcases List.mem_cons.1 hw with hw1 | hw1
        · simp [hw1, isOkE, hd]
        · exact hok w hw1
      · simpa [pullGo, hd] using hcp

/-- Counterexample to claim C2 as stated: in a cycle with two windows where
the first classifies and the second fails classification, the checkpoint does
not remain at its pre-cycle value; it stays at the commit of the last fully
handled window. -/
theorem c2_counterexample :
    (pull st2 cfg0 env0).outcome ≠ PullOutcome.ok ∧
    firstCommit st2 = commit0 ∧
    (pull st2 cfg0 env0).checkpoint = commit1 ∧
    (pull st2 cfg0 env0).checkpoint ≠ firstCommit st2 := by
  refine ⟨by decide, rfl, rfl, by decide⟩

/-- Claim C2 as amended: (1) the checkpoint is advanced to a window's next
commit only after the notification attempt for that window has completed —
everything preceding an advance event for commit n ends with the
classification of n followed by the complete dispatch trace of that window;
(2) if classification of a window fails, the checkpoint remains exactly at its
value from before the failing window (the previous commit of the first failing
window), so the failing commit is reprocessed on the next attempt. -/
theorem c2_checkpoint_after_notify :
    (∀ (st : RepoState) (cfg : Config) (env : Env) (n : Nat) (t₁ t₂ : List Event),
      (pull st cfg env).trace = t₁ ++ .advanced n :: t₂ →
      ∃ t₀ k a, t₁ = t₀ ++ .classified n :: notify k a cfg env) ∧
    (∀ (st : RepoState) (cfg : Config) (env : Env),
      env.fetchOk = true → (pull st cfg env).outcome ≠ .ok →
      ∃ ws₁ p n ws₂, pullWindows st = ws₁ ++ (p, n) :: ws₂ ∧
        (∀ w ∈ ws₁, isOkE (diff_one w.2.diff) = true) ∧
        isOkE (diff_one n.diff) = false ∧
        (pull st cfg env).checkpoint = p) := by
  constructor
  · intro st cfg env n t₁ t₂ h
    rcases hf : env.fetchOk
    · rw [pull] at h
      simp [hf] at h
    · rw [pull] at h
      simp [hf] at h
      exact pullGo_advanced_inv cfg env (pullWindows st) (firstCommit st) n t₁ t₂ h
  · intro st cfg env hf hout
    have hpull : pull st cfg env = pullGo cfg env (pullWindows st) (firstCommit st) := by
      simp [pull, hf]
    rw [hpull] at hout ⊢
    exact pullGo_failure cfg env (pullWindows st) (firstCommit st)
      (chainedFrom_pullWindows st) hout

/-- Witness for C2 as amended, on the two-window cycle of st2: the advance to
commit 1 is preceded by its classification and dispatch trace, and the failed
second window leaves the checkpoint at commit 1, the commit before it. -/
theorem c2_checkpoint_after_notify_witness :
    (∃ t₀ k a, [Event.classified 1] =
      t₀ ++ Event.classified 1 :: notify k a cfg0 env0) ∧
    (∃ ws₁ p n ws₂, pullWindows st2 = ws₁ ++ (p, n) :: ws₂ ∧
      (∀ w ∈ ws₁, isOkE (diff_one w.2.diff) = true) ∧
      isOkE (diff_one n.diff) = false ∧
      (pull st2 cfg0 env0).checkpoint = p) :=
  ⟨c2_checkpoint_after_notify.1 st2 cfg0 env0 1 [Event.classified 1]
      [Event.updateDelay 0, Event.classifyFailed 2] rfl,
   c2_checkpoint_after_notify.2 st2 cfg0 env0 rfl (by decide)⟩

/-! Helper lemmas for the multiplicity and decode violations. -/

/-- If the scan succeeds, the diff had at most one added and at most one
deleted record line in tracked deltas (counting records already carried in by
the accumulators) and no malformed tracked line. -/
theorem diff_oneLines_ok_inv : ∀ (lines : List DiffLine) (prev next p n : Option Crate),
    diff_oneLines lines prev next = .ok (p, n) →
    trackedAdds lines + (if next.isSome then 1 else 0) ≤ 1 ∧
    trackedDels lines + (if prev.isSome then 1 else 0) ≤ 1 ∧
    hasMalformedTracked lines = false := by
  intro lines
  induction lines with
  | nil =>
    intro prev next p n _
    rcases prev <;> rcases next <;>
      simp [trackedAdds, trackedDels, hasMalformedTracked]
  | cons l ls ih =>
    intro prev next p n h
    obtain ⟨s, nf, o, c⟩ := l
    by_cases hnf : (nf == 2 || nf == 1) = true <;>
      rcases s <;> rcases o <;> rcases c <;>
      rcases prev with _ | pc <;> rcases next with _ | nc <;>
      simp [diff_oneLines, hnf, trackedAdds, trackedDels, hasMalformedTracked,
        trackedLine, isPlus, isMinus, isMalformed] at h ⊢ <;>
      first
      | (obtain ⟨h1, h2, h3⟩ := ih _ _ _ _ h; simp at h1 h2 ⊢; omega)
      | (obtain ⟨h1, h2, h3⟩ := ih _ _ _ _ h; refine ⟨?_, ?_, h3⟩ <;> simp at h1 h2 ⊢ <;> omega)

/-- Every error of the scanning loop is a panic. -/
theorem diff_oneLines_error_panicked : ∀ (lines : List DiffLine)
    (prev next : Option Crate) (e : DiffOneError),
    diff_oneLines lines prev next = .error e → ∃ m, e = .panicked m := by
  intro lines
  induction lines with
  | nil => intro prev next e h; simp [diff_oneLines] at h
  | cons l ls ih =>
    intro prev next e h
    obtain ⟨s, nf, o, c⟩ := l
    by_cases hnf : (nf == 2 || nf == 1) = true <;>
      rcases s <;> rcases o <;> rcases c <;>
      rcases prev with _ | pc <;> rcases next with _ | nc <;>
      simp [diff_oneLines, hnf] at h <;>
      first
      | exact ih _ _ _ h
      | exact ⟨_, h.symm⟩

/-- A diff with two added record lines, or two deleted record lines, or a
tracked line that fails to decode, never classifies: diff_one ends in a panic. -/
theorem diff_one_violation : ∀ (lines : List DiffLine),
    2 ≤ trackedAdds lines ∨ 2 ≤ trackedDels lines ∨
      hasMalformedTracked lines = true →
    ∃ m, diff_one lines = .error (.panicked m) := by
  intro lines hviol
  rcases hscan : diff_oneLines lines none none with e | pn
  · obtain ⟨m, hm⟩ := diff_oneLines_error_panicked lines none none e hscan
    exact ⟨m, by simp [diff_one, hscan, hm]⟩
  · obtain ⟨p, n⟩ := pn
    obtain ⟨h1, h2, h3⟩ := diff_oneLines_ok_inv lines none none p n hscan
    simp at h1 h2
    rcases hviol with hv | hv | hv
    · omega
    · omega
    · rw [h3] at hv; exact absurd hv (by simp)

/-- Counterexample to claim C3 as stated: on a diff with two added record
lines, diff_one does not return the classification error value; the assert in
the scanning loop panics first. -/
theorem c3_counterexample :
    diff_one twoAddsDiff =
      .error (.panicked "Expected number of additions = 1 per commit") ∧
    diff_one twoAddsDiff ≠ .error .unexpectedDiff := by
  refine ⟨rfl, ?_⟩
  intro hc
  have h1 : diff_one twoAddsDiff =
      .error (.panicked "Expected number of additions = 1 per commit") := rfl
  rw [h1] at hc
  simp at hc

/-- Claim C3 as amended: a window whose diff has more than one deleted record
line, or more than one added record line, or a tracked line that fails to
decode, never classifies — it fails fatally by panic (never silently picking
one line) rather than by returning the classification error value; when such a
window comes up in a cycle the cycle ends at once with the checkpoint exactly
as it was before that window, not advanced past the offending commit. -/
theorem c3_multiplicity_fatal : ∀ (lines : List DiffLine),
    2 ≤ trackedAdds lines ∨ 2 ≤ trackedDels lines ∨
      hasMalformedTracked lines = true →
    (∃ m, diff_one lines = .error (.panicked m)) ∧
    (∀ (cfg : Config) (env : Env) (p nx : Commit)
      (ws : List (Commit × Commit)) (cp : Commit), nx.diff = lines →
      ∃ m, pullGo cfg env ((p, nx) :: ws) cp =
        ⟨[.classifyFailed nx.id], cp, .panicked m⟩) := by
  intro lines hviol
  obtain ⟨m, hm⟩ := diff_one_violation lines hviol
  refine ⟨⟨m, hm⟩, ?_⟩
  intro cfg env p nx ws cp hdiff
  refine ⟨m, ?_⟩
  rw [← hdiff] at hm
  simp [pullGo, hm]

/-- Witness for C3 as amended: the two-addition diff panics and aborts a cycle
in which it appears, with the checkpoint left at the window previous commit. -/
theorem c3_multiplicity_fatal_witness :
    (∃ m, diff_one twoAddsDiff = .error (.panicked m)) ∧
    (∃ m, pullGo cfg0 env0 [(commit0, ⟨9, twoAddsDiff⟩)] commit0 =
      ⟨[.classifyFailed 9], commit0, .panicked m⟩) :=
  ⟨(c3_multiplicity_fatal twoAddsDiff (by decide)).1,
   (c3_multiplicity_fatal twoAddsDiff (by decide)).2 cfg0 env0 commit0
      ⟨9, twoAddsDiff⟩ [] commit0 rfl⟩

/-! Helper lemma for the walker claim. -/

/-- The windows of a sequence are exactly its consecutive pairs, position by
position. -/
theorem array_windows_getElem? : ∀ (l : List Commit) (i : Nat),
    (array_windows l)[i]? =
      match l[i]?, l[i + 1]? with
      | some a, some b => some (a, b)
      | _, _ => none := by
  intro l i
  rw [array_windows, List.zip, List.getElem?_zipWith, List.getElem?_tail]
  rcases l[i]? with _ | a <;> rcases l[i + 1]? with _ | b <;> rfl

/-- Claim C5: for a well-formed checkpoint/fetched-head pair the revwalk is
the checkpoint followed by the new commits; the new commits are the history
slice after the checkpoint in ancestor-first order (position i of the slice is
position headIdx + 1 + i of the history: strict order, no gaps, no
duplicates); the window list has one window per new commit and its i-th entry
is exactly the pair of consecutive revwalk positions i and i + 1; and the
first window is the synthetic pair of the checkpoint and the first new
commit. -/
theorem c5_walker : ∀ (st : RepoState),
    st.headIdx ≤ st.fetchedIdx → st.fetchedIdx < st.history.length →
    (∃ h : st.headIdx < st.history.length,
      revwalkCommits st = st.history.get ⟨st.headIdx, h⟩ :: newCommits st) ∧
    (pullWindows st).length = (newCommits st).length ∧
    (∀ i, i < (newCommits st).length →
      (newCommits st)[i]? = st.history[st.headIdx + 1 + i]?) ∧
    (∀ i, (pullWindows st)[i]? =
      match (revwalkCommits st)[i]?, (revwalkCommits st)[i + 1]? with
      | some a, some b => some (a, b)
      | _, _ => none) ∧
    (∀ c cs, newCommits st = c :: cs →
      ∃ h : st.headIdx < st.history.length,
        (pullWindows st)[0]? = some (st.history.get ⟨st.headIdx, h⟩, c)) := by
  intro st hle hfl
  have hlt : st.headIdx < st.history.length := Nat.lt_of_le_of_lt hle hfl
  have htlen : (st.history.take (st.fetchedIdx + 1)).length = st.fetchedIdx + 1 := by
    simp [List.length_take]
    omega
  have hidx : st.headIdx < (st.history.take (st.fetchedIdx + 1)).length := by
    omega
  have hdec : revwalkCommits st =
      (st.history.take (st.fetchedIdx + 1))[st.headIdx] :: newCommits st := by
    rw [revwalkCommits, newCommits]
    exact List.drop_eq_getElem_cons hidx
  have e1 : (st.history.take (st.fetchedIdx + 1))[st.headIdx]? =
      st.history[st.headIdx]? := by
    rw [List.getElem?_take, if_pos (by omega)]
  have e2 : (st.history.take (st.fetchedIdx + 1))[st.headIdx] =
      st.history.get ⟨st.headIdx, hlt⟩ := by
    rw [List.getElem?_eq_getElem hidx, List.getElem?_eq_getElem hlt] at e1
    rw [List.get_eq_getElem]
    exact Option.some.inj e1
  have hnew_len : (newCommits st).length = st.fetchedIdx - st.headIdx := by
    simp [newCommits, List.length_drop, List.length_take]
    omega
  have hwin_len : (pullWindows st).length = (newCommits st).length := by
    have hseq_len : (revwalkCommits st).length = st.fetchedIdx + 1 - st.headIdx := by
      simp [revwalkCommits, List.length_drop, List.length_take]
      omega
    simp [pullWindows, array_windows, List.length_zip, List.length_tail]
    omega
  refine ⟨⟨hlt, ?_⟩, hwin_len, ?_, ?_, ?_⟩
  · rw [hdec, e2]
  · intro i hi
    rw [newCommits, List.getElem?_drop, List.getElem?_take, if_pos (by omega)]
  · intro i
    rw [pullWindows]
    exact array_windows_getElem? _ i
  · intro c cs hcs
    refine ⟨hlt, ?_⟩
    have h0 : (revwalkCommits st)[0]? =
        some (st.history.get ⟨st.headIdx, hlt⟩) := by
      rw [hdec, e2]
      simp
    have h1 : (revwalkCommits st)[0 + 1]? = some c := by
      rw [hdec, hcs]
      simp
    rw [pullWindows, array_windows_getElem? _ 0, h0, h1]

/-- Witness for C5 on the three-commit state st2. -/
theorem c5_walker_witness :
    (pullWindows st2).length = (newCommits st2).length ∧
    (newCommits st2)[0]? = st2.history[st2.headIdx + 1 + 0]? ∧
    (∃ h : st2.headIdx < st2.history.length,
      (pullWindows st2)[0]? = some (st2.history.get ⟨st2.headIdx, h⟩, commit1)) :=
  ⟨(c5_walker st2 (by decide) (by decide)).2.1,
   (c5_walker st2 (by decide) (by decide)).2.2.1 0 (by decide),
   (c5_walker st2 (by decide) (by decide)).2.2.2.2 commit1 [commit2bad] rfl⟩

end CrateUpdBot
